import Mathlib

/-!
Shallow embedding of the stackquotes metro-discovery pipeline.

The embedding covers:
* `evaluateCpa.ts` — the CPA site evaluator (kill rules + ranking score),
  including an executable model of the JavaScript regular expressions it
  uses (the patterns only require literals, character classes, optional
  groups, whitespace/digit repetition, `.*`, word boundaries and `$`,
  so a small nondeterministic matcher suffices);
* URL handling (`normalizeDomain`, `toHomeUrl`, `normalizeUrl`) built on a
  model of the WHATWG URL parser for special (http/https) scheme URLs;
* `fetchPage.ts` — the retrying fetcher, with network effects supplied by
  an outcome oracle (one outcome per attempt number);
* `searchDuckDuckGo.ts` — result-block collection, with fetching and HTML
  parsing supplied as oracles;
* the candidate-registry insertion loop of the discovery orchestrator;
* `mineTrustProxy.ts` — the trust-proxy miner, instrumented with a count
  of network calls issued.
-/

namespace MetroDiscovery

/- ===================== small regex engine ===================== -/

/-- Word character in the sense of JavaScript regex `\b` and `\w`
(ASCII letters, digits, underscore). -/
def isWordChar (c : Char) : Bool :=
  c.isAlphanum || c == '_'

/-- Whitespace characters recognized by JavaScript `\s` (ASCII subset). -/
def isWsChar (c : Char) : Bool :=
  c == ' ' || c == '\t' || c == '\n' || c == '\r' || c == '\x0b' || c == '\x0c'

/-- Regular-expression fragments sufficient for the patterns appearing in
the source: single characters from a class, starred character classes,
concatenation, alternation, word boundary and end of input. -/
inductive RE : Type where
  | eps : RE
  | tok : (Char → Bool) → RE
  | starTok : (Char → Bool) → RE
  | cat : RE → RE → RE
  | alt : RE → RE → RE
  | bdry : RE
  | eos : RE

/-- All match states reachable by letting a starred character class consume
a (possibly empty) run of matching characters. A state is the character
last consumed (if any) together with the remaining input. -/
def starStates (p : Char → Bool) : Option Char → List Char → List (Option Char × List Char)
  | prev, [] => [(prev, [])]
  | prev, c :: rest =>
      (prev, c :: rest) :: (if p c then starStates p (some c) rest else [])

/-- Word-boundary test between the previously consumed character and the
next input character (missing characters count as non-word). -/
def atBdry (prev : Option Char) (l : List Char) : Bool :=
  let a := match prev with | none => false | some c => isWordChar c
  let b := match l with | [] => false | c :: _ => isWordChar c
  a != b

/-- Nondeterministic matcher: all states reachable after `r` consumes a
prefix of the input. -/
def reMatch : RE → Option Char → List Char → List (Option Char × List Char)
  | .eps, prev, l => [(prev, l)]
  | .tok _, _, [] => []
  | .tok p, _, c :: rest => if p c then [(some c, rest)] else []
  | .starTok p, prev, l => starStates p prev l
  | .cat r1 r2, prev, l => (reMatch r1 prev l).flatMap (fun s => reMatch r2 s.1 s.2)
  | .alt r1 r2, prev, l => reMatch r1 prev l ++ reMatch r2 prev l
  | .bdry, prev, l => if atBdry prev l then [(prev, l)] else []
  | .eos, prev, l => match l with | [] => [(prev, [])] | _ => []

/-- Does `r` match starting at some position of the input (JavaScript
`RegExp.test` semantics)? -/
def searchFrom (r : RE) : Option Char → List Char → Bool
  | prev, [] => !(reMatch r prev []).isEmpty
  | prev, c :: rest => !(reMatch r prev (c :: rest)).isEmpty || searchFrom r (some c) rest

/-- Lowercased copy of a string (models `String.prototype.toLowerCase` on
the ASCII range). -/
def toLowerStr (s : String) : String :=
  ⟨s.data.map Char.toLower⟩

/-- Test a pattern against a string. -/
def testRE (r : RE) (s : String) : Bool :=
  searchFrom r none s.data

/-- Literal character sequence. -/
def lit (s : String) : RE :=
  s.data.foldr (fun c r => RE.cat (RE.tok (fun x => x == c)) r) RE.eps

/-- Concatenation of a pattern list. -/
def seqs (l : List RE) : RE := l.foldr RE.cat RE.eps

/-- Optional fragment (`(...)?`). -/
def reOpt (r : RE) : RE := RE.alt r RE.eps

/-- One or more whitespace characters (`\s+`). -/
def ws1 : RE := RE.cat (RE.tok isWsChar) (RE.starTok isWsChar)

/-- Zero or more whitespace characters (`\s*`). -/
def ws0 : RE := RE.starTok isWsChar

/-- Optional hyphen or whitespace character (`[-\s]?`). -/
def hyphenWsOpt : RE := reOpt (RE.tok (fun c => c == '-' || isWsChar c))

/-- One or more digits (`\d+`). -/
def digits1 : RE := RE.cat (RE.tok Char.isDigit) (RE.starTok Char.isDigit)

/-- Any characters except line terminators (`.*` without the `s` flag). -/
def dotStar : RE := RE.starTok (fun c => !(c == '\n' || c == '\r'))

/-- Word boundary (`\b`). -/
def bd : RE := RE.bdry

/-- Double or single quote character (the quote character class of the
Spanish language-attribute pattern). -/
def quoteTok : RE := RE.tok (fun c => c == '"' || c == Char.ofNat 39)

/- ===================== evaluateCpa.ts ===================== -/

/-- Signals record returned by the evaluator (field for field the
`CpaSignals` type of `evaluateCpa.ts`). -/
structure CpaSignals where
  cpa_identity_present : Bool
  construction_language : Bool
  contractor_language : Bool
  job_costing : Bool
  wip : Bool
  percentage_of_completion : Bool
  progress_billing : Bool
  retainage : Bool
  change_orders : Bool
  bookkeeping_language : Bool
  quickbooks_language : Bool
  trade_mentions : List String
  spanish_detected : Bool
  all_small_businesses_language : Bool
  individual_tax_focus : Bool
  national_firm_marketing : Bool
  directory_or_list_site : Bool
  deriving Repr, DecidableEq

/-- Result record of the evaluator (`CpaEval` in the source; the score is
an integer and may be negative). -/
structure CpaEval where
  keep : Bool
  score : Int
  reasons : List String
  signals : CpaSignals
  deriving Repr, DecidableEq

/-- Some pattern of the list matches (`hasAny` in the source). -/
def hasAny (text : String) (patterns : List RE) : Bool :=
  patterns.any (fun p => testRE p text)

/-- Number of patterns of the list that match (`countHits` in the source). -/
def countHits (text : String) (patterns : List RE) : Nat :=
  patterns.countP (fun p => testRE p text)

/-- Trade keyword list of `detectTrades`. -/
def tradesList : List String :=
  ["roofing", "hvac", "plumbing", "electrical", "solar", "siding",
   "windows", "gutters", "concrete", "fencing", "deck", "patio",
   "flooring", "drywall", "painting", "remodel", "kitchen", "bathroom"]

/-- Substring containment (JavaScript `String.prototype.includes`). -/
def hasSubstrL : List Char → List Char → Bool
  | [], n => n.isEmpty
  | c :: rest, n => n.isPrefixOf (c :: rest) || hasSubstrL rest n

/-- Trade keywords found in the text, first twelve in list order
(`detectTrades` in the source; the keyword list has no duplicates so the
set dedup step is the identity). -/
def detectTrades (text : String) : List String :=
  let lower := toLowerStr text
  (tradesList.filter (fun t => hasSubstrL lower.data t.data)).take 12

/-- CPA identity patterns (`cpaIdentityPats`). -/
def cpaIdentityPats : List RE :=
  [seqs [bd, lit "certified", ws1, lit "public", ws1, lit "accountant", bd],
   seqs [bd, lit "cpa", reOpt (lit "s"), bd],
   seqs [bd, lit "accounting", ws1, lit "firm", bd],
   seqs [bd, lit "accountant", reOpt (lit "s"), bd]]

/-- Construction language patterns (`constructionPats`). -/
def constructionPats : List RE :=
  [seqs [bd, lit "construction", bd],
   seqs [bd, lit "contractor", reOpt (lit "s"), bd],
   seqs [bd, lit "subcontract", RE.alt (lit "or") (lit "ing"), bd],
   seqs [bd, lit "builder", reOpt (lit "s"), bd],
   seqs [bd, lit "trade", reOpt (lit "s"), bd]]

/-- Job costing patterns (`jobCostingPats`). -/
def jobCostingPats : List RE :=
  [seqs [bd, lit "job", ws0, lit "cost", reOpt (lit "ing"), bd],
   seqs [bd, lit "cost", ws0, lit "code", reOpt (lit "s"), bd],
   seqs [bd, lit "job", hyphenWsOpt, lit "costing", bd]]

/-- Work-in-progress patterns (`wipPats`). -/
def wipPats : List RE :=
  [seqs [bd, lit "wip", bd],
   seqs [bd, lit "work", hyphenWsOpt, lit "in", hyphenWsOpt, lit "progress", bd]]

/-- Percentage-of-completion patterns (`pocPats`). -/
def pocPats : List RE :=
  [seqs [bd, lit "percentage", hyphenWsOpt, lit "of", hyphenWsOpt, lit "completion", bd],
   seqs [bd, lit "completed", hyphenWsOpt, lit "contract", bd]]

/-- Progress billing patterns (`progressBillingPats`). -/
def progressBillingPats : List RE :=
  [seqs [bd, lit "progress", ws0, lit "billing", bd]]

/-- Retainage patterns (`retainagePats`). -/
def retainagePats : List RE :=
  [seqs [bd, lit "retainage", bd], seqs [bd, lit "retention", bd]]

/-- Change order patterns (`changeOrderPats`). -/
def changeOrderPats : List RE :=
  [seqs [bd, lit "change", ws0, lit "order", reOpt (lit "s"), bd]]

/-- Bookkeeping patterns (`bookkeepingPats`). -/
def bookkeepingPats : List RE :=
  [seqs [bd, lit "bookkeeping", bd],
   seqs [bd, lit "bookkeeper", reOpt (lit "s"), bd],
   seqs [bd, lit "outsource", reOpt (lit "d"), ws1, lit "accounting", bd]]

/-- QuickBooks patterns (`quickbooksPats`). -/
def quickbooksPats : List RE :=
  [seqs [bd, lit "quickbooks", bd], seqs [bd, lit "qb", bd]]

/-- Spanish-language patterns (`spanishPats`). -/
def spanishPats : List RE :=
  [seqs [bd, lit "se", ws1, lit "habla", ws1, lit "español", bd],
   seqs [bd, lit "español", bd],
   seqs [bd, lit "servicio", reOpt (lit "s"), ws1, lit "en", ws1, lit "español", bd],
   seqs [lit "lang", ws0, lit "=", ws0, quoteTok, lit "es", quoteTok],
   seqs [lit "/es", RE.alt (lit "/") RE.eos]]

/-- Generic all-industries patterns (`allSmallBizPats`). -/
def allSmallBizPats : List RE :=
  [seqs [bd, lit "all", ws1, lit "small", ws1, lit "business", reOpt (lit "es"), bd],
   seqs [bd, lit "any", ws1, lit "small", ws1, lit "business", bd],
   seqs [bd, lit "we", ws1, lit "serve", ws1, lit "all", ws1, lit "industries", bd],
   seqs [bd, lit "all", ws1, lit "industries", bd]]

/-- Individual-tax patterns (`individualTaxHeavyPats`). -/
def individualTaxHeavyPats : List RE :=
  [seqs [bd, lit "personal", ws1, lit "tax", bd],
   seqs [bd, lit "individual", ws1, lit "tax", bd],
   seqs [bd, lit "1040", bd],
   seqs [bd, lit "tax", ws1, lit "prep", reOpt (lit "aration"), bd]]

/-- National-firm marketing patterns (`nationalFirmPats`). -/
def nationalFirmPats : List RE :=
  [seqs [bd, lit "nationwide", bd],
   seqs [bd, lit "serving", ws1, lit "clients", ws1, lit "across", ws1, lit "the", ws1, lit "country", bd],
   seqs [bd, lit "multiple", ws1, lit "offices", bd],
   seqs [bd, lit "office", reOpt (lit "s"), ws1, lit "in", ws1, digits1, ws1, lit "states", bd],
   seqs [bd, lit "global", bd],
   seqs [bd, lit "international", bd],
   seqs [bd, lit "top", ws1, digits1, bd, dotStar, bd, lit "firm", bd]]

/-- Directory/list-site patterns (`directoryPats`). -/
def directoryPats : List RE :=
  [seqs [bd, lit "top", ws1, digits1, bd],
   seqs [bd, lit "best", ws1, lit "of", bd],
   seqs [bd, lit "ranking", reOpt (lit "s"), bd],
   seqs [bd, lit "directory", bd],
   seqs [bd, lit "list", bd],
   seqs [bd, lit "find", ws1, lit "a", bd]]

/-- Standalone contractor pattern used for `contractor_language`. -/
def contractorPat : RE := seqs [bd, lit "contractor", reOpt (lit "s"), bd]

/-- Individual-tax pattern hit count (`indTaxHits` local of the
evaluator). -/
def indTaxHitsOf (text : String) : Nat :=
  countHits text individualTaxHeavyPats

/-- Construction-depth signal count (`constructionDepthHits` local of the
evaluator), the sum over the seven depth booleans. -/
def constructionDepthHitsOf (text : String) : Nat :=
  (if hasAny text jobCostingPats then 1 else 0) +
  (if hasAny text wipPats then 1 else 0) +
  (if hasAny text pocPats then 1 else 0) +
  (if hasAny text progressBillingPats then 1 else 0) +
  (if hasAny text retainagePats then 1 else 0) +
  (if hasAny text changeOrderPats then 1 else 0) +
  (if hasAny text bookkeepingPats then 1 else 0)

/-- Signal detection part of `evaluateCpaSite` (lines 76–183 of
`evaluateCpa.ts`): lowercase the combined text and run every detector. -/
def signalsOf (combinedText : String) : CpaSignals :=
  let text := toLowerStr combinedText
  let cpa_identity_present := hasAny text cpaIdentityPats
  let construction_language := hasAny text constructionPats
  let contractor_language := testRE contractorPat text
  let job_costing := hasAny text jobCostingPats
  let wip := hasAny text wipPats
  let percentage_of_completion := hasAny text pocPats
  let progress_billing := hasAny text progressBillingPats
  let retainage := hasAny text retainagePats
  let change_orders := hasAny text changeOrderPats
  let bookkeeping_language := hasAny text bookkeepingPats
  let quickbooks_language := hasAny text quickbooksPats
  let spanish_detected := hasAny text spanishPats
  let all_small_businesses_language := hasAny text allSmallBizPats
  let individual_tax_focus :=
    decide (2 ≤ indTaxHitsOf text) && decide (constructionDepthHitsOf text = 0)
  let national_firm_marketing := hasAny text nationalFirmPats
  let directory_or_list_site := hasAny text directoryPats && !cpa_identity_present
  let trade_mentions := detectTrades text
  { cpa_identity_present := cpa_identity_present
    construction_language := construction_language
    contractor_language := contractor_language
    job_costing := job_costing
    wip := wip
    percentage_of_completion := percentage_of_completion
    progress_billing := progress_billing
    retainage := retainage
    change_orders := change_orders
    bookkeeping_language := bookkeeping_language
    quickbooks_language := quickbooks_language
    trade_mentions := trade_mentions
    spanish_detected := spanish_detected
    all_small_businesses_language := all_small_businesses_language
    individual_tax_focus := individual_tax_focus
    national_firm_marketing := national_firm_marketing
    directory_or_list_site := directory_or_list_site }

/-- Reason strings collected by the kill rules (lines 186–193), in push
order. -/
def reasonsOf (s : CpaSignals) : List String :=
  (if !s.cpa_identity_present then ["No CPA/accounting firm identity detected"] else []) ++
  (if !s.construction_language then ["No construction/contractor language detected"] else []) ++
  (if s.all_small_businesses_language then ["Generic \x27all small businesses/all industries\x27 positioning"] else []) ++
  (if s.individual_tax_focus then ["Appears personal-tax dominant with no construction depth"] else []) ++
  (if s.national_firm_marketing then ["National/regional firm marketing language (low local trust leverage)"] else []) ++
  (if s.directory_or_list_site then ["Directory/list site (not a firm)"] else [])

/-- Kill disjunction (lines 195–201). -/
def killedOf (s : CpaSignals) : Bool :=
  !s.cpa_identity_present || !s.construction_language ||
  s.all_small_businesses_language || s.individual_tax_focus ||
  s.national_firm_marketing || s.directory_or_list_site

/-- Ranking score (lines 204–225): positive weights added, then the three
weighted negative signals subtracted. -/
def scoreOf (s : CpaSignals) : Int :=
  ((if s.cpa_identity_present then 20 else 0) +
   (if s.construction_language then 20 else 0) +
   (if s.contractor_language then 5 else 0) +
   (if s.job_costing then 20 else 0) +
   (if s.wip then 18 else 0) +
   (if s.percentage_of_completion then 18 else 0) +
   (if s.progress_billing then 10 else 0) +
   (if s.retainage then 8 else 0) +
   (if s.change_orders then 10 else 0) +
   (if s.bookkeeping_language then 10 else 0) +
   (if s.quickbooks_language then 6 else 0) +
   (if 0 < s.trade_mentions.length then min 12 ((s.trade_mentions.length : Int) * 2) else 0) +
   (if s.spanish_detected then 6 else 0))
  - (if s.all_small_businesses_language then 30 else 0)
  - (if s.individual_tax_focus then 25 else 0)
  - (if s.national_firm_marketing then 40 else 0)

/-- The evaluator `evaluateCpaSite`: detect signals once, then derive keep
flag, score and reasons from them exactly as the source does. -/
def evaluateCpaSite (combinedText : String) : CpaEval :=
  let signals := signalsOf combinedText
  { keep := !killedOf signals
    score := scoreOf signals
    reasons := reasonsOf signals
    signals := signals }

/- ===================== URL model ===================== -/

/-- Components of a parsed URL. `host` is the authority with an optional
port, lowercased; `path` is empty or starts with a slash. -/
structure UrlParts where
  scheme : String
  host : String
  path : String
  query : String
  frag : String
  deriving Repr, DecidableEq

/-- Split the input at the first `://`, returning the scheme characters
and the remainder. Fails when no colon occurs or the first colon is not
followed by two slashes. -/
def splitScheme : List Char → Option (List Char × List Char)
  | [] => none
  | c :: rest =>
      if c == ':' then
        match rest with
        | '/' :: '/' :: r => some ([], r)
        | _ => none
      else
        match splitScheme rest with
        | none => none
        | some (s, r) => some (c :: s, r)

/-- Characters allowed in a URL scheme. -/
def isSchemeChar (c : Char) : Bool :=
  c.isAlphanum || c == '+' || c == '-' || c == '.'

/-- Characters terminating the authority component. -/
def isAuthorityEnd (c : Char) : Bool :=
  c == '/' || c == '?' || c == '#'

/-- Model of the WHATWG URL parser (`new URL(...)`) for the
scheme-and-authority URLs this pipeline handles: the scheme must be
present and well formed, the authority must be non-empty, the host is
lowercased (as WHATWG does for special schemes), and path, query and
fragment are split off the remainder. Inputs without a `scheme://` part
(such as a bare domain) fail to parse, exactly as `new URL` throws on
them. -/
def parseUrl (u : String) : Option UrlParts :=
  match splitScheme u.data with
  | none => none
  | some (schemeChars, rest) =>
    match schemeChars with
    | [] => none
    | c0 :: _ =>
      if !c0.isAlpha || !(schemeChars.all isSchemeChar) then none
      else
        let authority := rest.takeWhile (fun c => !isAuthorityEnd c)
        let tail := rest.dropWhile (fun c => !isAuthorityEnd c)
        if authority.isEmpty then none
        else
          let host := authority.map Char.toLower
          let path := tail.takeWhile (fun c => !(c == '?' || c == '#'))
          let tail2 := tail.dropWhile (fun c => !(c == '?' || c == '#'))
          let qf : List Char × List Char :=
            match tail2 with
            | '?' :: q =>
                (q.takeWhile (fun c => !(c == '#')),
                 (q.dropWhile (fun c => !(c == '#'))).drop 1)
            | '#' :: f => ([], f)
            | _ => ([], [])
          some { scheme := ⟨schemeChars⟩, host := ⟨host⟩, path := ⟨path⟩,
                 query := ⟨qf.1⟩, frag := ⟨qf.2⟩ }

/-- Hostname of a parsed URL (`url.hostname`): the host without the port. -/
def hostnameOf (p : UrlParts) : String :=
  ⟨p.host.data.takeWhile (fun c => !(c == ':'))⟩

/-- Drop one leading `www.` (the `replace(/^www\./, "")` step). -/
def stripWwwL (l : List Char) : List Char :=
  if ['w', 'w', 'w', '.'].isPrefixOf l then l.drop 4 else l

/-- Domain key used by the discovery orchestrator (`normalizeDomain` in
the orchestrator source): hostname of the parsed URL, leading `www.`
stripped, lowercased; empty string when the URL does not parse. -/
def normalizeDomain (u : String) : String :=
  match parseUrl u with
  | none => ""
  | some p => ⟨(stripWwwL (hostnameOf p).data).map Char.toLower⟩

/-- Identical duplicate of `normalizeDomain` living in
`trust-proxy/common.ts` (`normalizeDomainFromUrl`). -/
def normalizeDomainFromUrl (u : String) : String :=
  match parseUrl u with
  | none => ""
  | some p => ⟨(stripWwwL (hostnameOf p).data).map Char.toLower⟩

/-- Orchestrator `toHomeUrl`: root URL of the same host, `null` (here
`none`) when the URL does not parse. -/
def toHomeUrl (u : String) : Option String :=
  match parseUrl u with
  | none => none
  | some p => some (p.scheme ++ "://" ++ p.host ++ "/")

/-- Variant of `toHomeUrl` living in `trust-proxy/common.ts`, which returns an empty string
instead of failing. -/
def toHomeUrlStr (u : String) : String :=
  match parseUrl u with
  | none => ""
  | some p => p.scheme ++ "://" ++ p.host ++ "/"

/-- SearchProvider `normalizeUrl`: re-serialize the URL with query and
fragment stripped, or return the input unchanged when it does not parse
(an empty path serializes as a single slash, as WHATWG does). -/
def normalizeUrl (u : String) : String :=
  match parseUrl u with
  | none => u
  | some p => p.scheme ++ "://" ++ p.host ++ (if p.path = "" then "/" else p.path)

/- ===================== banned-domain lists ===================== -/

/-- Banned domain list of the orchestrator (`isBannedDomain`). -/
def bannedDomains : List String :=
  ["yelp.com", "facebook.com", "linkedin.com", "yellowpages.com",
   "angi.com", "thumbtack.com", "clutch.co", "expertise.com", "bbb.org",
   "mapquest.com", "chamberofcommerce.com", "dnb.com", "opencorporates.com"]

/-- A domain is banned when it equals a banned entry or is a subdomain of
one (`domain === b || domain.endsWith("." + b)`). -/
def isBannedDomain (domain : String) : Bool :=
  bannedDomains.any (fun b => domain == b || ("." ++ b).data.isSuffixOf domain.data)

/-- Duplicate `isProbablyDirectoryDomain` of `trust-proxy/common.ts` — the same
test over the same list. -/
def isProbablyDirectoryDomain (domain : String) : Bool :=
  bannedDomains.any (fun b => domain == b || ("." ++ b).data.isSuffixOf domain.data)

/- ===================== candidate registry ===================== -/

/-- Provenance of a candidate. -/
inductive Origin : Type where
  | search : Origin
  | trustProxy : Origin
  deriving Repr, DecidableEq

/-- Registry value (`FirmCandidate` in the orchestrator). -/
structure FirmCandidate where
  domain : String
  homeUrl : String
  bestTitle : String
  sourceQueries : List String
  discoveredUrls : List String
  origin : Origin
  deriving Repr, DecidableEq

/-- One search hit as consumed by the registry loop (the `|| ""`
null-coalescing of the source is folded into plain string fields). -/
structure RawHit where
  title : String
  url : String
  deriving Repr, DecidableEq

/-- The registry (`candidatesByDomain : Map<string, FirmCandidate>`),
modeled as an association list in insertion order. -/
abbrev Registry : Type := List (String × FirmCandidate)

/-- Lookup by domain key (`Map.get`). -/
def registryFind (m : Registry) (d : String) : Option FirmCandidate :=
  (List.find? (fun e => e.1 == d) m).map Prod.snd

/-- In-place update of the entry with the given key (the source mutates
the looked-up candidate object; JavaScript `Map` keeps its position). -/
def registryUpdate (m : Registry) (d : String) (f : FirmCandidate → FirmCandidate) : Registry :=
  List.map (fun e => if e.1 == d then (e.1, f e.2) else e) m

/-- One iteration of the hit loop of `runDiscoveryPass` (orchestrator
lines 130–156): skip empty URLs, unparseable domains, banned domains and
URLs without a home URL; merge provenance into an existing candidate or
append a fresh one. -/
def insertHit (m : Registry) (q : String) (h : RawHit) : Registry :=
  if h.url == "" then m
  else
    let domain := normalizeDomain h.url
    if domain == "" || isBannedDomain domain then m
    else
      match toHomeUrl h.url with
      | none => m
      | some homeUrl =>
        match registryFind m domain with
        | some _ =>
            registryUpdate m domain (fun existing =>
              { existing with
                  sourceQueries := existing.sourceQueries ++ [q]
                  discoveredUrls := existing.discoveredUrls ++ [h.url]
                  bestTitle :=
                    if existing.bestTitle.length < h.title.length then h.title
                    else existing.bestTitle })
        | none =>
            m ++ [(domain,
              { domain := domain, homeUrl := homeUrl, bestTitle := h.title,
                sourceQueries := [q], discoveredUrls := [h.url],
                origin := Origin.search })]

/-- Insert a batch of (query, hit) pairs in order. -/
def insertHits (m : Registry) (l : List (String × RawHit)) : Registry :=
  l.foldl (fun acc qh => insertHit acc qh.1 qh.2) m

/-- Domain keys of a registry. -/
def registryKeys (m : Registry) : List String :=
  m.map Prod.fst

/- ===================== fetchPage.ts ===================== -/

/-- Result of one attempted HTTP GET, supplied by an oracle: either a
response with a status, final (post-redirect) URL and body, or a thrown
network/timeout error. -/
inductive FetchOutcome : Type where
  | response (status : Nat) (finalUrl : String) (body : String) : FetchOutcome
  | netError (isAbort : Bool) (message : String) : FetchOutcome
  deriving Repr

/-- Structured result of `fetchHtml` (`FetchResult` in the source). -/
structure FetchResult where
  ok : Bool
  status : Nat
  url : String
  html : Option String
  error : Option String
  deriving Repr, DecidableEq

/-- Options of `fetchHtml` after default resolution. -/
structure FetchOpts where
  timeoutMs : Nat
  maxRetries : Nat
  deriving Repr, DecidableEq

/-- Retry loop of `fetchHtml` (lines 23–69). `attempt` is the
post-increment attempt number; the fuel starts at `maxRetries + 1`, the
number of iterations the `while (attempt <= maxRetries)` loop can make,
so the fuel-exhausted branch corresponds to the unreachable
`unknown error` return after the loop. The second component counts HTTP
requests issued. Limiter waits and backoff sleeps are pure-time effects
and do not appear in the result. -/
def fetchGo (oracle : Nat → FetchOutcome) (url : String) (maxRetries : Nat) :
    Nat → Nat → FetchResult × Nat
  | 0, _ => ({ ok := false, status := 0, url := url, html := none,
               error := some "unknown error" }, 0)
  | fuel + 1, attempt =>
    match oracle attempt with
    | .response status finalUrl body =>
        if 200 ≤ status ∧ status < 300 then
          ({ ok := true, status := status, url := finalUrl,
             html := some body, error := none }, 1)
        else if (status = 429 ∨ 500 ≤ status) ∧ attempt ≤ maxRetries then
          let r := fetchGo oracle url maxRetries fuel (attempt + 1)
          (r.1, r.2 + 1)
        else
          ({ ok := false, status := status, url := finalUrl, html := none,
             error := some ("HTTP " ++ toString status) }, 1)
    | .netError isAbort msg =>
        if attempt ≤ maxRetries then
          let r := fetchGo oracle url maxRetries fuel (attempt + 1)
          (r.1, r.2 + 1)
        else
          ({ ok := false, status := 0, url := url, html := none,
             error := some (if isAbort then "timeout" else msg) }, 1)

/-- Entry point `fetchHtml` with request counting. -/
def fetchHtmlC (oracle : Nat → FetchOutcome) (url : String) (opts : FetchOpts) :
    FetchResult × Nat :=
  fetchGo oracle url opts.maxRetries (opts.maxRetries + 1) 1

/-- The fetcher `fetchHtml`: always returns a structured `FetchResult`, never
raising. -/
def fetchHtml (oracle : Nat → FetchOutcome) (url : String) (opts : FetchOpts) :
    FetchResult :=
  (fetchHtmlC oracle url opts).1

/-- Shape of a well-formed fetch result: a success carries the HTML and
no error, a failure carries an error message and no HTML. -/
def fetchResultWellFormed (r : FetchResult) : Bool :=
  if r.ok then r.html.isSome && r.error.isNone
  else r.error.isSome && r.html.isNone

/- ===================== searchDuckDuckGo.ts ===================== -/

/-- Normalized search hit (`SearchHit` in the source). -/
structure SearchHit where
  title : String
  url : String
  snippet : String
  sourceQuery : String
  deriving Repr, DecidableEq

/-- One `.result` block as cheerio exposes it to the collection loop:
anchor text and href of the first `a.result__a`, and the two snippet
texts consulted. Absent attributes appear as empty strings (the `|| ""`
coalescing of the source). -/
structure ResultBlock where
  anchorText : String
  href : String
  snippetText : String
  bodyText : String
  deriving Repr, DecidableEq

/-- Leading and trailing whitespace removed (JavaScript `trim`). -/
def trimWs (s : String) : String :=
  ⟨((s.data.dropWhile isWsChar).reverse.dropWhile isWsChar).reverse⟩

/-- Value of a hexadecimal digit. -/
def hexVal (c : Char) : Option Nat :=
  if '0' ≤ c ∧ c ≤ '9' then some (c.toNat - 48)
  else if 'a' ≤ c ∧ c ≤ 'f' then some (c.toNat - 87)
  else if 'A' ≤ c ∧ c ≤ 'F' then some (c.toNat - 55)
  else none

/-- Decoding applied by `URLSearchParams.get`: plus becomes space,
`%XX` becomes the coded character, malformed escapes are kept verbatim
(this decoder never throws). Multi-byte UTF-8 sequences are modeled
byte-naively, which the claims do not depend on. -/
def formDecodeL : List Char → List Char
  | [] => []
  | '%' :: h1 :: h2 :: rest =>
      match hexVal h1, hexVal h2 with
      | some a, some b => Char.ofNat (16 * a + b) :: formDecodeL rest
      | _, _ => '%' :: formDecodeL (h1 :: h2 :: rest)
  | '+' :: rest => ' ' :: formDecodeL rest
  | c :: rest => c :: formDecodeL rest

/-- Model of `decodeURIComponent`: like the form decoder but a malformed escape
throws, modeled as `none`. -/
def percentDecodeL : List Char → Option (List Char)
  | [] => some []
  | '%' :: h1 :: h2 :: rest =>
      match hexVal h1, hexVal h2 with
      | some a, some b => (percentDecodeL rest).map (fun l => Char.ofNat (16 * a + b) :: l)
      | _, _ => none
  | '%' :: _ => none
  | c :: rest => (percentDecodeL rest).map (fun l => c :: l)

/-- Query component of a URL reference: the part after the first question
mark, up to a hash. (Resolving the href against the DuckDuckGo base URL
preserves the query component of the reference, so the parameter lookup
can read it off the href directly.) -/
def queryOf (href : String) : List Char :=
  ((href.data.dropWhile (fun c => !(c == '?'))).drop 1).takeWhile (fun c => !(c == '#'))

/-- Split a character list on a separator. -/
def splitOnChar (sep : Char) : List Char → List (List Char)
  | [] => [[]]
  | c :: rest =>
      let r := splitOnChar sep rest
      if c == sep then [] :: r
      else
        match r with
        | [] => [[c]]
        | h :: t => (c :: h) :: t

/-- Model of `parsed.searchParams.get(name)`: first query pair whose name matches,
form-decoded; `none` when absent. -/
def getSearchParam (name : String) (href : String) : Option String :=
  match (splitOnChar '&' (queryOf href)).find?
      (fun p => p.takeWhile (fun c => !(c == '=')) == name.data) with
  | none => none
  | some p => some ⟨formDecodeL ((p.dropWhile (fun c => !(c == '='))).drop 1)⟩

/-- The redirect-unwrapping step (lines 45–52): when the href carries a
non-empty `uddg` parameter, replace it by `decodeURIComponent` of that
value; a decoding failure is caught and leaves the href unchanged. -/
def resolveUddg (href : String) : String :=
  match getSearchParam "uddg" href with
  | none => href
  | some uddg =>
      if uddg == "" then href
      else
        match percentDecodeL uddg.data with
        | some d => ⟨d⟩
        | none => href

/-- Hexadecimal digit character (uppercase). -/
def hexDigit (n : Nat) : Char :=
  if n < 10 then Char.ofNat (48 + n) else Char.ofNat (55 + n)

/-- Model of `encodeURIComponent` on the ASCII range: unreserved
characters kept, everything else percent-encoded. -/
def encodeURIComponent (s : String) : String :=
  ⟨s.data.flatMap (fun c =>
    if c.isAlphanum || c == '-' || c == '_' || c == '.' || c == '!' ||
       c == '~' || c == '*' || c == Char.ofNat 39 || c == '(' || c == ')'
    then [c]
    else ['%', hexDigit (c.toNat / 16 % 16), hexDigit (c.toNat % 16)])⟩

/-- The `.result` collection loop (lines 37–66): a block is skipped once
the cap is reached, and skipped when its trimmed href (after redirect
unwrapping) or trimmed title is empty; otherwise a hit with the
normalized URL and the originating query is appended. -/
def collectHits (query : String) (maxResults : Nat) :
    List ResultBlock → List SearchHit → List SearchHit
  | [], acc => acc
  | b :: rest, acc =>
    if maxResults ≤ acc.length then collectHits query maxResults rest acc
    else
      let title := trimWs b.anchorText
      let href := resolveUddg (trimWs b.href)
      let snippet :=
        if trimWs b.snippetText == "" then trimWs b.bodyText
        else trimWs b.snippetText
      if href == "" || title == "" then collectHits query maxResults rest acc
      else
        collectHits query maxResults rest
          (acc ++ [{ title := title, url := normalizeUrl href,
                     snippet := snippet, sourceQuery := query }])

/-- External capabilities of the search provider: the network (one fetch
outcome per URL and attempt number) and the cheerio parse of the result
page into `.result` blocks. -/
structure DdgEnv where
  fetchOracle : String → Nat → FetchOutcome
  parseBlocks : String → List ResultBlock

/-- Search provider `duckDuckGoSearch` with request counting: build the endpoint URL,
fetch it (timeout 20 s, two retries), return no hits when the fetch
failed or the body is missing or empty, else collect capped hits from
the parsed blocks. -/
def duckDuckGoSearchC (env : DdgEnv) (query : String) (maxResults : Nat) :
    List SearchHit × Nat :=
  let url := "https://duckduckgo.com/html/?q=" ++ encodeURIComponent query
  let rn := fetchHtmlC (env.fetchOracle url) url { timeoutMs := 20000, maxRetries := 2 }
  match rn.1.html with
  | none => ([], rn.2)
  | some h =>
      if !rn.1.ok || h == "" then ([], rn.2)
      else (collectHits query maxResults (env.parseBlocks h) [], rn.2)

/-- Search provider `duckDuckGoSearch` (the rate limiter is a pacing effect only and does
not influence the returned value). -/
def duckDuckGoSearch (env : DdgEnv) (query : String) (maxResults : Nat) :
    List SearchHit :=
  (duckDuckGoSearchC env query maxResults).1

/- ===================== mineTrustProxy.ts ===================== -/

/-- Mining lanes (`TrustProxySource`). -/
inductive TrustProxySource : Type where
  | supplier : TrustProxySource
  | association : TrustProxySource
  | expert : TrustProxySource
  deriving Repr, DecidableEq

/-- Lane name as interpolated into evidence strings. -/
def laneName : TrustProxySource → String
  | .supplier => "supplier"
  | .association => "association"
  | .expert => "expert"

/-- Record `TrustProxyCandidate` of `trust-proxy/types.ts`. -/
structure TrustProxyCandidate where
  source : TrustProxySource
  proxy : String
  firm_name : String
  domain : String
  home_url : String
  source_url : String
  metro : String
  evidence : List String
  deriving Repr, DecidableEq

/-- Per-lane candidate caps. -/
structure PerSourceCaps where
  supplier : Nat
  association : Nat
  expert : Nat
  deriving Repr, DecidableEq

/-- Per-lane query lists. -/
structure LaneQueries where
  supplier : List String
  association : List String
  expert : List String
  deriving Repr, DecidableEq

/-- Record `TrustProxySpec` of `trust-proxy/types.ts`. -/
structure TrustProxySpec where
  enabled : Bool
  max_candidates_total : Nat
  max_candidates_per_source : PerSourceCaps
  queries : LaneQueries
  deriving Repr, DecidableEq

/-- Labeling `inferProxyLabel` (the `return url` fallback of the source is
unreachable because the union of lanes is closed). -/
def inferProxyLabel (source : TrustProxySource) : String :=
  match source with
  | .supplier => "Supplier surface"
  | .association => "Trade association artifact"
  | .expert => "Expert / forensic surface"

/-- Predicate `isPdfUrl`: `/\.pdf(\?|#|$)/i` or `/filetype=pdf/i` (case-insensitive,
hence tested on the lowercased URL). -/
def isPdfUrl (url : String) : Bool :=
  testRE (seqs [lit ".pdf", RE.alt (RE.tok (fun c => c == '?' || c == '#')) RE.eos])
    (toLowerStr url) ||
  testRE (lit "filetype=pdf") (toLowerStr url)

/-- Mega-firm phrase list of `looksLikeNationalMegaFirm`. -/
def megaFirmPhrases : List String :=
  ["nationwide", "serving clients across the country", "offices in",
   "global", "international", "top 100 firm", "top 50 firm"]

/-- Filter `looksLikeNationalMegaFirm`: lowercased substring containment over
the phrase list. -/
def looksLikeNationalMegaFirm (text : String) : Bool :=
  megaFirmPhrases.any (fun x => hasSubstrL (toLowerStr text).data x.data)

/-- First-occurrence deduplication (`uniq`, an insertion-ordered set). -/
def uniqGo (seen : List String) : List String → List String
  | [] => []
  | x :: rest =>
      if seen.contains x then uniqGo seen rest
      else x :: uniqGo (x :: seen) rest

/-- Deduplication `uniq` of `trust-proxy/common.ts`. -/
def uniq (l : List String) : List String := uniqGo [] l

/-- Local search-hit shape of `mineTrustProxy.ts` (snippet optional,
modeled as a possibly empty string). -/
structure MinedHit where
  title : String
  url : String
  sourceQuery : String
  snippet : String
  deriving Repr, DecidableEq

/-- External capabilities of the miner. Besides the network and HTML
parse shared with the search provider, PDF text extraction
(`extractPdfTextFromUrl`, one network fetch per call), visible-text
extraction (`extractFromHtml(...).text`) and the firm-name heuristics of
`common.ts` (`extractFirmNameHints`, `cleanFirmName`, capture-group regex
string processing with no network effect) are supplied as pure
collaborator functions. -/
structure MinerEnv where
  ddg : DdgEnv
  extractPdfText : String → String
  extractText : String → String
  firmNameHints : String → List String
  cleanName : String → String

/-- Candidate-building loop body of `candidatesFromHit` (lines 111–129):
walk the capped firm-name hints, apply the guardrails, accumulate the
shared evidence list and emit one candidate per surviving hint. -/
def buildCands (source : TrustProxySource) (metro : String) (hit : MinedHit)
    (domain : String) : List String → List String → List TrustProxyCandidate
  | [], _ => []
  | firm :: rest, evidence =>
      if firm.length < 4 then buildCands source metro hit domain rest evidence
      else if testRE (seqs [lit "top", ws1, digits1]) (toLowerStr firm) then
        buildCands source metro hit domain rest evidence
      else if testRE (seqs [lit "best", ws1]) (toLowerStr firm) then
        buildCands source metro hit domain rest evidence
      else
        let evidence2 :=
          evidence ++ ["Mention detected via " ++ laneName source ++ ": \"" ++ firm ++ "\""]
        { source := source, proxy := inferProxyLabel source, firm_name := firm,
          domain := domain,
          home_url := if domain == "" then "" else toHomeUrlStr hit.url,
          source_url := hit.url, metro := metro,
          evidence := (uniq evidence2).take 4 } ::
          buildCands source metro hit domain rest evidence2

/-- Conversion `candidatesFromHit` (lines 67–132) with request counting: reject
directory domains outright; obtain page text by PDF extraction or by a
crawl (timeout 20 s, one retry) plus text extraction; combine with title
and snippet hints; reject empty or mega-firm text; then emit candidates
from the deduplicated, capped name hints. -/
def candidatesFromHit (env : MinerEnv) (source : TrustProxySource)
    (metro : String) (hit : MinedHit) : List TrustProxyCandidate × Nat :=
  let domain := normalizeDomainFromUrl hit.url
  if !(domain == "") && isProbablyDirectoryDomain domain then ([], 0)
  else
    let blobHints := [hit.title] ++ (if hit.snippet == "" then [] else [hit.snippet])
    let pt : String × Nat :=
      if isPdfUrl hit.url then (env.extractPdfText hit.url, 1)
      else
        let rn := fetchHtmlC (env.ddg.fetchOracle hit.url) hit.url
          { timeoutMs := 20000, maxRetries := 1 }
        (match rn.1.html with
         | some h => if rn.1.ok && !(h == "") then env.extractText h else ""
         | none => "", rn.2)
    let combined := trimWs (String.intercalate " " blobHints ++ "\n" ++ pt.1)
    if combined == "" then ([], pt.2)
    else if looksLikeNationalMegaFirm combined then ([], pt.2)
    else
      let nameHints := env.firmNameHints combined
      let fallbackName := env.cleanName hit.title
      let inferred :=
        if !nameHints.isEmpty then nameHints
        else if !(fallbackName == "") && 4 ≤ fallbackName.length then [fallbackName]
        else []
      (buildCands source metro hit domain ((uniq inferred).take 5) [], pt.2)

/-- Push candidates one at a time, stopping as soon as the cap is
reached (the inner `for (const c of cands)` loop with its break). -/
def pushCapped (out : List TrustProxyCandidate) (maxOut : Nat) :
    List TrustProxyCandidate → List TrustProxyCandidate
  | [] => out
  | c :: rest =>
      let out2 := out ++ [c]
      if maxOut ≤ out2.length then out2 else pushCapped out2 maxOut rest

/-- Hit loop of `mineSource` (lines 146–162): skip hits without a URL,
convert each hit, accumulate candidates, break once the cap is reached. -/
def mineHits (env : MinerEnv) (source : TrustProxySource) (metro : String)
    (maxOut : Nat) : List MinedHit → List TrustProxyCandidate →
    List TrustProxyCandidate × Nat
  | [], out => (out, 0)
  | h :: rest, out =>
      if h.url == "" then mineHits env source metro maxOut rest out
      else
        let cn := candidatesFromHit env source metro h
        let out2 := pushCapped out maxOut cn.1
        if maxOut ≤ out2.length then (out2, cn.2)
        else
          let r := mineHits env source metro maxOut rest out2
          (r.1, cn.2 + r.2)

/-- Query loop of `mineSource` (lines 144–164): one search (25 results)
per query, then the hit loop, stopping early once the cap is reached. -/
def mineSrcGo (env : MinerEnv) (source : TrustProxySource) (metro : String)
    (maxOut : Nat) : List String → List TrustProxyCandidate →
    List TrustProxyCandidate × Nat
  | [], out => (out, 0)
  | q :: rest, out =>
      let hn := duckDuckGoSearchC env.ddg q 25
      let on2 := mineHits env source metro maxOut
        (hn.1.map (fun h => { title := h.title, url := h.url,
                              sourceQuery := q, snippet := h.snippet })) out
      if maxOut ≤ on2.1.length then (on2.1, hn.2 + on2.2)
      else
        let r := mineSrcGo env source metro maxOut rest on2.1
        (r.1, hn.2 + on2.2 + r.2)

/-- Lane miner `mineSource`. -/
def mineSource (env : MinerEnv) (source : TrustProxySource) (metro : String)
    (queries : List String) (maxOut : Nat) : List TrustProxyCandidate × Nat :=
  mineSrcGo env source metro maxOut queries []

/-- Miner `mineTrustProxyCandidates` (lines 169–215) with request counting:
return immediately when mining is disabled; otherwise mine the three
lanes in order with their per-lane caps and apply the global cap. -/
def mineTrustProxyCandidates (env : MinerEnv) (metro : String)
    (spec : TrustProxySpec) : List TrustProxyCandidate × Nat :=
  if !spec.enabled then ([], 0)
  else
    let supplier := mineSource env .supplier metro spec.queries.supplier
      spec.max_candidates_per_source.supplier
    let association := mineSource env .association metro spec.queries.association
      spec.max_candidates_per_source.association
    let expert := mineSource env .expert metro spec.queries.expert
      spec.max_candidates_per_source.expert
    let merged := supplier.1 ++ association.1 ++ expert.1
    (merged.take spec.max_candidates_total, supplier.2 + association.2 + expert.2)

/- ===================== evaluator lemmas ===================== -/

theorem signalsOf_cpa (t : String) :
    (signalsOf t).cpa_identity_present = hasAny (toLowerStr t) cpaIdentityPats := rfl

theorem signalsOf_construction (t : String) :
    (signalsOf t).construction_language = hasAny (toLowerStr t) constructionPats := rfl

theorem signalsOf_job_costing (t : String) :
    (signalsOf t).job_costing = hasAny (toLowerStr t) jobCostingPats := rfl

theorem signalsOf_asb (t : String) :
    (signalsOf t).all_small_businesses_language = hasAny (toLowerStr t) allSmallBizPats := rfl

theorem signalsOf_itf (t : String) :
    (signalsOf t).individual_tax_focus =
      (decide (2 ≤ indTaxHitsOf (toLowerStr t)) &&
       decide (constructionDepthHitsOf (toLowerStr t) = 0)) := rfl

theorem signalsOf_nfm (t : String) :
    (signalsOf t).national_firm_marketing = hasAny (toLowerStr t) nationalFirmPats := rfl

theorem signalsOf_dir (t : String) :
    (signalsOf t).directory_or_list_site =
      (hasAny (toLowerStr t) directoryPats && !hasAny (toLowerStr t) cpaIdentityPats) := rfl

theorem evaluateCpaSite_keep (t : String) :
    (evaluateCpaSite t).keep = !killedOf (signalsOf t) := rfl

theorem evaluateCpaSite_score (t : String) :
    (evaluateCpaSite t).score = scoreOf (signalsOf t) := rfl

theorem evaluateCpaSite_reasons (t : String) :
    (evaluateCpaSite t).reasons = reasonsOf (signalsOf t) := rfl

theorem evaluateCpaSite_signals (t : String) :
    (evaluateCpaSite t).signals = signalsOf t := rfl

/-- The reasons list is empty exactly when no kill condition fired. -/
theorem reasonsOf_nil_iff (s : CpaSignals) :
    reasonsOf s = [] ↔ killedOf s = false := by
  unfold reasonsOf killedOf
  cases s.cpa_identity_present <;>
    cases s.construction_language <;>
      cases s.all_small_businesses_language <;>
        cases s.individual_tax_focus <;>
          cases s.national_firm_marketing <;>
            cases s.directory_or_list_site <;> simp

/-- An unkilled signal record scores at least 40. -/
theorem scoreOf_ge_40_of_not_killed (s : CpaSignals) (h : killedOf s = false) :
    40 ≤ scoreOf s := by
  unfold killedOf at h
  simp only [Bool.or_eq_false_iff, Bool.not_eq_false'] at h
  obtain ⟨⟨⟨⟨⟨h1, h2⟩, h3⟩, h4⟩, h5⟩, h6⟩ := h
  unfold scoreOf
  rw [h1, h2, h3, h4, h5]
  norm_num
  have n1 : (0 : Int) ≤ if s.contractor_language = true then 5 else 0 := by
    split <;> norm_num
  have n2 : (0 : Int) ≤ if s.job_costing = true then 20 else 0 := by
    split <;> norm_num
  have n3 : (0 : Int) ≤ if s.wip = true then 18 else 0 := by
    split <;> norm_num
  have n4 : (0 : Int) ≤ if s.percentage_of_completion = true then 18 else 0 := by
    split <;> norm_num
  have n5 : (0 : Int) ≤ if s.progress_billing = true then 10 else 0 := by
    split <;> norm_num
  have n6 : (0 : Int) ≤ if s.retainage = true then 8 else 0 := by
    split <;> norm_num
  have n7 : (0 : Int) ≤ if s.change_orders = true then 10 else 0 := by
    split <;> norm_num
  have n8 : (0 : Int) ≤ if s.bookkeeping_language = true then 10 else 0 := by
    split <;> norm_num
  have n9 : (0 : Int) ≤ if s.quickbooks_language = true then 6 else 0 := by
    split <;> norm_num
  have n10 : (0 : Int) ≤
      if 0 < s.trade_mentions.length then
        min 12 ((s.trade_mentions.length : Int) * 2) else 0 := by
    split
    · exact le_min (by norm_num) (by positivity)
    · norm_num
  have n11 : (0 : Int) ≤ if s.spanish_detected = true then 6 else 0 := by
    split <;> norm_num
  linarith [n1, n2, n3, n4, n5, n6, n7, n8, n9, n10, n11]

/- ===================== C1 ===================== -/

/-- C1: whenever any of the four negative signals (generic all-industries
language, individual-tax dominance with zero construction depth,
national-firm marketing, directory/list-site language) is detected,
`evaluateCpaSite` keeps the candidate out (`keep = false`), regardless of
positive signals and score; in particular a text with job-costing,
work-in-progress and percentage-of-completion terms plus a nationwide
phrase is rejected. -/
theorem evaluateCpaSite_negative_signal_kills :
    (∀ text : String,
      ((signalsOf text).all_small_businesses_language ||
       (signalsOf text).individual_tax_focus ||
       (signalsOf text).national_firm_marketing ||
       (signalsOf text).directory_or_list_site) = true →
      (evaluateCpaSite text).keep = false) ∧
    (evaluateCpaSite
      "cpa construction job costing work-in-progress percentage-of-completion nationwide").keep
      = false := by
  constructor
  · intro text h
    rw [evaluateCpaSite_keep]
    simp only [Bool.or_eq_true] at h
    rcases h with ((h | h) | h) | h <;> simp [killedOf, h]
  · decide

/-- Witness for C1: a concrete text with the nationwide phrase triggers
the national-firm negative signal and is rejected. -/
theorem evaluateCpaSite_negative_signal_kills_witness :
    (evaluateCpaSite "cpa construction nationwide").keep = false :=
  evaluateCpaSite_negative_signal_kills.1 "cpa construction nationwide" (by decide)

/- ===================== C8 ===================== -/

/-- C8: `evaluateCpaSite` keeps a candidate exactly when its reasons list
is empty — every kill condition contributes a reason and `keep` is the
negation of their disjunction. -/
theorem evaluateCpaSite_keep_iff_reasons_nil (t : String) :
    (evaluateCpaSite t).keep = true ↔ (evaluateCpaSite t).reasons = [] := by
  rw [evaluateCpaSite_keep, evaluateCpaSite_reasons, reasonsOf_nil_iff]
  simp

/- ===================== C9 ===================== -/

/-- C9: an admitted candidate scores at least 40 — admission requires the
two 20-point signals and forbids every score-reducing negative signal. -/
theorem evaluateCpaSite_keep_score_ge_40 (t : String)
    (h : (evaluateCpaSite t).keep = true) :
    40 ≤ (evaluateCpaSite t).score := by
  rw [evaluateCpaSite_keep] at h
  rw [evaluateCpaSite_score]
  exact scoreOf_ge_40_of_not_killed _ (by simpa using h)

/-- Witness for C9 at a concrete admitted text. -/
theorem evaluateCpaSite_keep_score_ge_40_witness :
    40 ≤ (evaluateCpaSite "cpa construction").score :=
  evaluateCpaSite_keep_score_ge_40 "cpa construction" (by decide)

/- ===================== C2 ===================== -/

/-- A detected job-costing signal forces the individual-tax-focus
negative signal off, because the construction-depth count is positive. -/
theorem itf_false_of_job_costing (t : String)
    (h : (signalsOf t).job_costing = true) :
    (signalsOf t).individual_tax_focus = false := by
  rw [signalsOf_itf]
  rw [signalsOf_job_costing] at h
  have hd : constructionDepthHitsOf (toLowerStr t) ≠ 0 := by
    unfold constructionDepthHitsOf
    rw [h]
    simp only [if_true]
    omega
  rw [decide_eq_false hd, Bool.and_false]

/-- A detected CPA identity forces the directory/list-site negative
signal off. -/
theorem dir_false_of_cpa (t : String)
    (h : (signalsOf t).cpa_identity_present = true) :
    (signalsOf t).directory_or_list_site = false := by
  rw [signalsOf_dir]
  rw [signalsOf_cpa] at h
  rw [h]
  simp

/-- Counterexample to C2 as stated: the text `construction job costing`
contains the words construction and job costing and matches none of the
four negative phrase families, yet it is rejected with a non-empty
reasons list, because no CPA-identity term is present. -/
theorem evaluateCpaSite_construction_jobcosting_not_kept :
    hasAny (toLowerStr "construction job costing") constructionPats = true ∧
    hasAny (toLowerStr "construction job costing") jobCostingPats = true ∧
    hasAny (toLowerStr "construction job costing") allSmallBizPats = false ∧
    countHits (toLowerStr "construction job costing") individualTaxHeavyPats = 0 ∧
    hasAny (toLowerStr "construction job costing") nationalFirmPats = false ∧
    hasAny (toLowerStr "construction job costing") directoryPats = false ∧
    (evaluateCpaSite "construction job costing").keep = false ∧
    (evaluateCpaSite "construction job costing").reasons ≠ [] := by
  decide

/-- C2 (amended): a page text whose detected signals include a CPA
identity together with construction and job-costing language and exclude
the all-industries and national-firm negatives is admitted with a
positive score and an empty reasons list. -/
theorem evaluateCpaSite_admits_construction_jobcosting (t : String)
    (h1 : (signalsOf t).cpa_identity_present = true)
    (h2 : (signalsOf t).construction_language = true)
    (h3 : (signalsOf t).job_costing = true)
    (h4 : (signalsOf t).all_small_businesses_language = false)
    (h5 : (signalsOf t).national_firm_marketing = false) :
    (evaluateCpaSite t).keep = true ∧
    0 < (evaluateCpaSite t).score ∧
    (evaluateCpaSite t).reasons = [] := by
  have h6 := itf_false_of_job_costing t h3
  have h7 := dir_false_of_cpa t h1
  have hkill : killedOf (signalsOf t) = false := by
    unfold killedOf
    rw [h1, h2, h4, h5, h6, h7]
    rfl
  refine ⟨?_, ?_, ?_⟩
  · rw [evaluateCpaSite_keep, hkill]
    rfl
  · rw [evaluateCpaSite_score]
    have := scoreOf_ge_40_of_not_killed _ hkill
    omega
  · rw [evaluateCpaSite_reasons]
    exact (reasonsOf_nil_iff _).mpr hkill

/-- Witness for the amended C2 at the concrete text
`cpa construction job costing`. -/
theorem evaluateCpaSite_admits_construction_jobcosting_witness :
    (evaluateCpaSite "cpa construction job costing").keep = true ∧
    0 < (evaluateCpaSite "cpa construction job costing").score ∧
    (evaluateCpaSite "cpa construction job costing").reasons = [] :=
  evaluateCpaSite_admits_construction_jobcosting "cpa construction job costing"
    (by decide) (by decide) (by decide) (by decide) (by decide)

/- ===================== C7 ===================== -/

/-- Pointwise comparison on the positive-weight signals: every positive
signal detected in the first record is detected in the second, and the
first has at most as many trade mentions. -/
def PosLE (s1 s2 : CpaSignals) : Prop :=
  (s1.cpa_identity_present = true → s2.cpa_identity_present = true) ∧
  (s1.construction_language = true → s2.construction_language = true) ∧
  (s1.contractor_language = true → s2.contractor_language = true) ∧
  (s1.job_costing = true → s2.job_costing = true) ∧
  (s1.wip = true → s2.wip = true) ∧
  (s1.percentage_of_completion = true → s2.percentage_of_completion = true) ∧
  (s1.progress_billing = true → s2.progress_billing = true) ∧
  (s1.retainage = true → s2.retainage = true) ∧
  (s1.change_orders = true → s2.change_orders = true) ∧
  (s1.bookkeeping_language = true → s2.bookkeeping_language = true) ∧
  (s1.quickbooks_language = true → s2.quickbooks_language = true) ∧
  (s1.spanish_detected = true → s2.spanish_detected = true) ∧
  s1.trade_mentions.length ≤ s2.trade_mentions.length

/-- Agreement on the score-weighted negative signals. -/
def NegEq (s1 s2 : CpaSignals) : Prop :=
  s1.all_small_businesses_language = s2.all_small_businesses_language ∧
  s1.individual_tax_focus = s2.individual_tax_focus ∧
  s1.national_firm_marketing = s2.national_firm_marketing

instance (s1 s2 : CpaSignals) : Decidable (PosLE s1 s2) := by
  unfold PosLE
  infer_instance

instance (s1 s2 : CpaSignals) : Decidable (NegEq s1 s2) := by
  unfold NegEq
  infer_instance

theorem ite_weight_le (b1 b2 : Bool) (k : Int) (hk : 0 ≤ k)
    (h : b1 = true → b2 = true) :
    (if b1 = true then k else 0) ≤ (if b2 = true then k else 0) := by
  cases b1
  · simp only [Bool.false_eq_true, if_false]
    split
    · exact hk
    · exact le_rfl
  · rw [h rfl]

theorem trade_ite_eq (n : Nat) :
    (if 0 < n then min 12 ((n : Int) * 2) else 0) = min 12 ((n : Int) * 2) := by
  split
  · rfl
  · have h0 : n = 0 := by omega
    subst h0
    simp

theorem trade_weight_le (n1 n2 : Nat) (h : n1 ≤ n2) :
    (if 0 < n1 then min 12 ((n1 : Int) * 2) else 0) ≤
      (if 0 < n2 then min 12 ((n2 : Int) * 2) else 0) := by
  rw [trade_ite_eq, trade_ite_eq]
  have h2 : (n1 : Int) * 2 ≤ (n2 : Int) * 2 := by omega
  exact min_le_min le_rfl h2

/-- The ranking score is monotone: adding positive-weight signals (while
the weighted negative signals stay fixed) can only raise it. -/
theorem scoreOf_mono (s1 s2 : CpaSignals) (hp : PosLE s1 s2) (hn : NegEq s1 s2) :
    scoreOf s1 ≤ scoreOf s2 := by
  obtain ⟨p1, p2, p3, p4, p5, p6, p7, p8, p9, p10, p11, p12, p13⟩ := hp
  obtain ⟨e1, e2, e3⟩ := hn
  unfold scoreOf
  rw [e1, e2, e3]
  apply sub_le_sub_right
  apply sub_le_sub_right
  apply sub_le_sub_right
  have m1 := ite_weight_le _ _ 20 (by norm_num) p1
  have m2 := ite_weight_le _ _ 20 (by norm_num) p2
  have m3 := ite_weight_le _ _ 5 (by norm_num) p3
  have m4 := ite_weight_le _ _ 20 (by norm_num) p4
  have m5 := ite_weight_le _ _ 18 (by norm_num) p5
  have m6 := ite_weight_le _ _ 18 (by norm_num) p6
  have m7 := ite_weight_le _ _ 10 (by norm_num) p7
  have m8 := ite_weight_le _ _ 8 (by norm_num) p8
  have m9 := ite_weight_le _ _ 10 (by norm_num) p9
  have m10 := ite_weight_le _ _ 10 (by norm_num) p10
  have m11 := ite_weight_le _ _ 6 (by norm_num) p11
  have m12 := ite_weight_le _ _ 6 (by norm_num) p12
  have m13 := trade_weight_le _ _ p13
  linarith [m1, m2, m3, m4, m5, m6, m7, m8, m9, m10, m11, m12, m13]

/-- C7: if the detected signals of one text dominate those of another on the
positive-weight signals (in particular, when they are identical except
for one additional positive signal) and agree on the weighted negative
signals, its score is at least as large. -/
theorem evaluateCpaSite_score_monotone (t1 t2 : String)
    (hp : PosLE (evaluateCpaSite t1).signals (evaluateCpaSite t2).signals)
    (hn : NegEq (evaluateCpaSite t1).signals (evaluateCpaSite t2).signals) :
    (evaluateCpaSite t1).score ≤ (evaluateCpaSite t2).score := by
  rw [evaluateCpaSite_signals, evaluateCpaSite_signals] at hp hn
  rw [evaluateCpaSite_score, evaluateCpaSite_score]
  exact scoreOf_mono _ _ hp hn

/-- Witness for C7: adding the retainage term to a kept text does not
lower the score. -/
theorem evaluateCpaSite_score_monotone_witness :
    (evaluateCpaSite "cpa construction").score ≤
      (evaluateCpaSite "cpa construction retainage").score :=
  evaluateCpaSite_score_monotone "cpa construction" "cpa construction retainage"
    (by decide) (by decide)

/- ===================== C3 ===================== -/

theorem fetchGo_wellFormed (oracle : Nat → FetchOutcome) (url : String)
    (mr : Nat) :
    ∀ (fuel attempt : Nat),
      fetchResultWellFormed (fetchGo oracle url mr fuel attempt).1 = true := by
  intro fuel
  induction fuel with
  | zero => intro a; rfl
  | succ n ih =>
    intro a
    unfold fetchGo
    cases oracle a with
    | response s fu b =>
      dsimp only
      split
      · rfl
      · split
        · exact ih (a + 1)
        · rfl
    | netError ab m =>
      dsimp only
      split
      · exact ih (a + 1)
      · rfl

/-- C3: for every URL, oracle and options, `fetchHtml` returns a
structured result (never raising — all failure paths are caught), and
the result is well formed: a success carries the HTML and no error and a
failure (non-retryable HTTP error, or exhausted retries) carries an
error message. -/
theorem fetchHtml_never_throws (oracle : Nat → FetchOutcome) (url : String)
    (opts : FetchOpts) :
    fetchResultWellFormed (fetchHtml oracle url opts) = true :=
  fetchGo_wellFormed oracle url opts.maxRetries (opts.maxRetries + 1) 1

/- ===================== C10 ===================== -/

/-- Per-hit invariant stated by C10. -/
def goodHit (query : String) (h : SearchHit) : Bool :=
  !(h.title == "") && !(h.url == "") && (h.sourceQuery == query)

theorem strData_append (a b : String) : (a ++ b).data = a.data ++ b.data := rfl

theorem normalizeUrl_ne_empty (s : String) (h : (s == "") = false) :
    (normalizeUrl s == "") = false := by
  unfold normalizeUrl
  cases hp : parseUrl s with
  | none => exact h
  | some p =>
    rw [beq_eq_false_iff_ne]
    intro contra
    have hd := congrArg String.data contra
    rw [strData_append, strData_append, strData_append] at hd
    simp [List.append_eq_nil] at hd

theorem collectHits_invariant (query : String) (maxResults : Nat) :
    ∀ (blocks : List ResultBlock) (acc : List SearchHit),
      acc.all (goodHit query) = true → acc.length ≤ maxResults →
      (collectHits query maxResults blocks acc).all (goodHit query) = true ∧
      (collectHits query maxResults blocks acc).length ≤ maxResults := by
  intro blocks
  induction blocks with
  | nil => intro acc h1 h2; exact ⟨h1, h2⟩
  | cons b rest ih =>
    intro acc h1 h2
    simp only [collectHits]
    by_cases hc : maxResults ≤ acc.length
    · rw [if_pos hc]
      exact ih acc h1 h2
    · rw [if_neg hc]
      by_cases hg :
          (resolveUddg (trimWs b.href) == "" || trimWs b.anchorText == "") = true
      · rw [if_pos hg]
        exact ih acc h1 h2
      · rw [if_neg hg]
        have hg2 := Bool.or_eq_false_iff.mp (Bool.eq_false_iff.mpr hg)
        apply ih
        · rw [List.all_append, h1, Bool.true_and]
          simp only [List.all_cons, List.all_nil, Bool.and_true, goodHit]
          rw [hg2.2, normalizeUrl_ne_empty _ hg2.1]
          simp
        · rw [List.length_append]
          simp only [List.length_cons, List.length_nil]
          omega


/-- C10: every hit returned by `duckDuckGoSearch` has a non-empty title,
a non-empty URL and carries the originating query, and at most
`maxResults` hits are returned. -/
theorem duckDuckGoSearch_hits_wellFormed (env : DdgEnv) (query : String)
    (maxResults : Nat) :
    (duckDuckGoSearch env query maxResults).all (goodHit query) = true ∧
    (duckDuckGoSearch env query maxResults).length ≤ maxResults := by
  unfold duckDuckGoSearch duckDuckGoSearchC
  cases h : (fetchHtmlC
      (env.fetchOracle ("https://duckduckgo.com/html/?q=" ++ encodeURIComponent query))
      ("https://duckduckgo.com/html/?q=" ++ encodeURIComponent query)
      { timeoutMs := 20000, maxRetries := 2 }).1.html with
  | none => simp [h]
  | some html =>
    simp only [h]
    split
    · simp
    · exact collectHits_invariant query maxResults _ [] rfl (Nat.zero_le _)

/- ===================== C6 ===================== -/

/-- C6: when the trust-proxy spec is disabled, mining returns the empty
candidate list having issued zero network calls. -/
theorem mineTrustProxyCandidates_disabled (env : MinerEnv) (metro : String)
    (spec : TrustProxySpec) (h : spec.enabled = false) :
    mineTrustProxyCandidates env metro spec = ([], 0) := by
  unfold mineTrustProxyCandidates
  rw [h]
  rfl

/-- A disabled spec with non-trivial queries and caps. -/
def specDisabled : TrustProxySpec :=
  { enabled := false
    max_candidates_total := 20
    max_candidates_per_source := { supplier := 10, association := 10, expert := 5 }
    queries := { supplier := ["construction supplier houston"], association := ["agc houston"],
                 expert := ["construction cpa expert houston"] } }

/-- A concrete environment for the witness. -/
def envTrivial : MinerEnv :=
  { ddg := { fetchOracle := fun _ _ => FetchOutcome.netError true "unreachable"
             parseBlocks := fun _ => [] }
    extractPdfText := fun _ => ""
    extractText := fun _ => ""
    firmNameHints := fun _ => []
    cleanName := fun _ => "" }

/-- Witness for C6 at a concrete disabled spec. -/
theorem mineTrustProxyCandidates_disabled_witness :
    mineTrustProxyCandidates envTrivial "Houston" specDisabled = ([], 0) :=
  mineTrustProxyCandidates_disabled envTrivial "Houston" specDisabled rfl

/- ===================== C4 ===================== -/

/-- Domain key under which a hit is admitted to the registry, `none` when
the insertion loop skips it (empty URL, unparseable or banned domain, no
home URL). -/
def hitKey (h : RawHit) : Option String :=
  if h.url == "" then none
  else
    if normalizeDomain h.url == "" || isBannedDomain (normalizeDomain h.url) then none
    else
      match toHomeUrl h.url with
      | none => none
      | some _ => some (normalizeDomain h.url)

theorem registryKeys_update (m : Registry) (d : String)
    (f : FirmCandidate → FirmCandidate) :
    registryKeys (registryUpdate m d f) = registryKeys m := by
  unfold registryKeys registryUpdate
  rw [List.map_map]
  apply List.map_congr_left
  intro e _
  dsimp only [Function.comp]
  split <;> rfl

theorem registryKeys_append_one (m : Registry) (e : String × FirmCandidate) :
    registryKeys (m ++ [e]) = registryKeys m ++ [e.1] := by
  unfold registryKeys
  rw [List.map_append]
  rfl

theorem registryFind_isSome_iff (m : Registry) (d : String) :
    (registryFind m d).isSome = true ↔ d ∈ registryKeys m := by
  unfold registryFind registryKeys
  rw [show (Option.map Prod.snd (List.find? (fun e => e.1 == d) m)).isSome
        = (List.find? (fun e => e.1 == d) m).isSome from by
      cases List.find? (fun e => e.1 == d) m <;> rfl]
  rw [List.find?_isSome]
  simp only [List.mem_map, beq_iff_eq]

theorem mem_keys_insertHit (m : Registry) (q : String) (h : RawHit) (x : String) :
    x ∈ registryKeys (insertHit m q h) ↔ x ∈ registryKeys m ∨ hitKey h = some x := by
  simp only [insertHit, hitKey]
  by_cases h1 : (h.url == "") = true
  · rw [if_pos h1, if_pos h1]
    simp
  · rw [if_neg h1, if_neg h1]
    by_cases h2 :
        (normalizeDomain h.url == "" || isBannedDomain (normalizeDomain h.url)) = true
    · rw [if_pos h2, if_pos h2]
      simp
    · rw [if_neg h2, if_neg h2]
      cases hh : toHomeUrl h.url with
      | none => simp
      | some hu =>
        cases hf : registryFind m (normalizeDomain h.url) with
        | some c =>
          have hmem : normalizeDomain h.url ∈ registryKeys m := by
            rw [← registryFind_isSome_iff, hf]
            rfl
          rw [registryKeys_update]
          constructor
          · intro hx
            exact Or.inl hx
          · rintro (hx | hx)
            · exact hx
            · rw [← Option.some_inj.mp hx]
              exact hmem
        | none =>
          rw [registryKeys_append_one]
          rw [List.mem_append, List.mem_singleton]
          simp [eq_comm]

theorem mem_keys_insertHits (l : List (String × RawHit)) :
    ∀ (m : Registry) (x : String),
      x ∈ registryKeys (insertHits m l) ↔
        x ∈ registryKeys m ∨ ∃ qh ∈ l, hitKey qh.2 = some x := by
  induction l with
  | nil =>
    intro m x
    simp [insertHits]
  | cons a rest ih =>
    intro m x
    have hstep : insertHits m (a :: rest) = insertHits (insertHit m a.1 a.2) rest := rfl
    rw [hstep, ih, mem_keys_insertHit]
    simp only [List.mem_cons]
    constructor
    · rintro ((hx | hk) | ⟨qh, hqh, hk⟩)
      · exact Or.inl hx
      · exact Or.inr ⟨a, Or.inl rfl, hk⟩
      · exact Or.inr ⟨qh, Or.inr hqh, hk⟩
    · rintro (hx | ⟨qh, hqh | hqh, hk⟩)
      · exact Or.inl (Or.inl hx)
      · exact Or.inl (Or.inr (hqh ▸ hk))
      · exact Or.inr ⟨qh, hqh, hk⟩

/-- C4: inserting a finite collection of search hits into the candidate
registry in any order yields the same final set of distinct candidate
domain keys. -/
theorem insertHits_keys_order_independent (l1 l2 : List (String × RawHit))
    (hperm : l1.Perm l2) :
    (registryKeys (insertHits [] l1)).toFinset =
      (registryKeys (insertHits [] l2)).toFinset := by
  ext x
  simp only [List.mem_toFinset]
  rw [mem_keys_insertHits, mem_keys_insertHits]
  constructor
  · rintro (hx | ⟨qh, hqh, hk⟩)
    · exact Or.inl hx
    · exact Or.inr ⟨qh, hperm.subset hqh, hk⟩
  · rintro (hx | ⟨qh, hqh, hk⟩)
    · exact Or.inl hx
    · exact Or.inr ⟨qh, hperm.symm.subset hqh, hk⟩

/-- First insertion order for the C4 witness. -/
def hitsA : List (String × RawHit) :=
  [("houston construction cpa", { title := "Alpha CPA", url := "https://www.alpha-cpa.com/services" }),
   ("construction accountant houston", { title := "Beta CPA", url := "https://beta-cpa.com/" })]

/-- The reversed insertion order for the C4 witness. -/
def hitsB : List (String × RawHit) :=
  [("construction accountant houston", { title := "Beta CPA", url := "https://beta-cpa.com/" }),
   ("houston construction cpa", { title := "Alpha CPA", url := "https://www.alpha-cpa.com/services" })]

/-- Witness for C4 at two concrete permuted insertion orders. -/
theorem insertHits_keys_order_independent_witness :
    (registryKeys (insertHits [] hitsA)).toFinset =
      (registryKeys (insertHits [] hitsB)).toFinset :=
  insertHits_keys_order_independent hitsA hitsB (by decide)

/- ===================== C5 ===================== -/

theorem toLower_ne_colon (c : Char) (h : (c == ':') = false) :
    (Char.toLower c == ':') = false := by
  simp only [Char.toLower]
  split
  · rename_i hcond
    obtain ⟨hl, hr⟩ := hcond
    set n := c.toNat with hn
    interval_cases n <;> decide
  · exact h

theorem splitScheme_https (l : List Char) :
    splitScheme ('h' :: 't' :: 't' :: 'p' :: 's' :: ':' :: '/' :: '/' :: l)
      = some (['h', 't', 't', 'p', 's'], l) := rfl

theorem splitScheme_no_colon (l : List Char) (h : ∀ c ∈ l, (c == ':') = false) :
    splitScheme l = none := by
  induction l with
  | nil => rfl
  | cons c r ih =>
    simp only [splitScheme]
    rw [if_neg (by simp [h c (List.mem_cons_self c r)])]
    rw [ih (fun x hx => h x (List.mem_cons_of_mem c hx))]

theorem normalizeDomain_no_colon (u : String) :
    ∀ c ∈ (normalizeDomain u).data, (c == ':') = false := by
  unfold normalizeDomain
  cases hp : parseUrl u with
  | none => intro c hc; exact absurd hc (List.not_mem_nil c)
  | some p =>
    intro c hc
    obtain ⟨c', hc', rfl⟩ := List.mem_map.mp hc
    apply toLower_ne_colon
    have hc'' : c' ∈ (hostnameOf p).data := by
      unfold stripWwwL at hc'
      split at hc'
      · exact List.mem_of_mem_drop hc'
      · exact hc'
    have hpred := List.mem_takeWhile_imp hc''
    simpa using hpred

/-- Applying `normalizeDomain` to any of its outputs yields the empty
string: an output is either empty or a bare hostname, and neither parses
as a URL (a hostname contains no colon, hence no scheme separator). -/
theorem normalizeDomain_twice (u : String) :
    normalizeDomain (normalizeDomain u) = "" := by
  have hp : parseUrl (normalizeDomain u) = none := by
    unfold parseUrl
    rw [splitScheme_no_colon _ (normalizeDomain_no_colon u)]
  rw [normalizeDomain, hp]

/-- Hosts this model reasons about generically: non-empty, free of the
authority/port delimiters. -/
def hostOk (host : String) : Bool :=
  !host.data.isEmpty && host.data.all (fun c => !isAuthorityEnd c && !(c == ':'))

theorem takeWhile_append_all (p : Char → Bool) (l1 l2 : List Char)
    (h : ∀ c ∈ l1, p c = true) :
    (l1 ++ l2).takeWhile p = l1 ++ l2.takeWhile p := by
  induction l1 with
  | nil => simp
  | cons c r ih =>
    simp only [List.cons_append, List.takeWhile_cons]
    rw [h c (List.mem_cons_self c r)]
    simp only [if_true]
    rw [ih (fun x hx => h x (List.mem_cons_of_mem c hx))]

theorem parseUrl_https_host (host p : String) (hh : hostOk host = true) :
    ∃ parts, parseUrl ("https://" ++ host ++ "/" ++ p) = some parts ∧
      parts.host = ⟨host.data.map Char.toLower⟩ := by
  rw [hostOk, Bool.and_eq_true] at hh
  obtain ⟨hne, hall⟩ := hh
  have hdata : ("https://" ++ host ++ "/" ++ p).data
      = 'h' :: 't' :: 't' :: 'p' :: 's' :: ':' :: '/' :: '/' ::
          (host.data ++ '/' :: p.data) := by
    rw [strData_append, strData_append, strData_append]
    simp [List.append_assoc]
  have hsplit : splitScheme ("https://" ++ host ++ "/" ++ p).data
      = some (['h', 't', 't', 'p', 's'], host.data ++ '/' :: p.data) := by
    rw [hdata]
    exact splitScheme_https _
  have hmemtake : ∀ c ∈ host.data, (fun c => !isAuthorityEnd c) c = true := by
    intro c hc
    have h1 := List.all_eq_true.mp hall c hc
    rw [Bool.and_eq_true] at h1
    exact h1.1
  have htake : (host.data ++ '/' :: p.data).takeWhile (fun c => !isAuthorityEnd c)
      = host.data := by
    rw [takeWhile_append_all _ _ _ hmemtake]
    rw [show ('/' :: p.data).takeWhile (fun c => !isAuthorityEnd c) = [] from by
      simp [List.takeWhile_cons, isAuthorityEnd]]
    exact List.append_nil _
  unfold parseUrl
  rw [hsplit]
  dsimp only
  rw [if_neg (by decide)]
  rw [htake]
  have hne2 : host.data.isEmpty = false := by
    cases hd : host.data
    · rw [hd] at hne
      simp at hne
    · rfl
  rw [if_neg (by simp [hne2])]
  exact ⟨_, rfl, rfl⟩

theorem normalizeDomain_https (host p : String) (hh : hostOk host = true) :
    normalizeDomain ("https://" ++ host ++ "/" ++ p)
      = ⟨(stripWwwL (host.data.map Char.toLower)).map Char.toLower⟩ := by
  obtain ⟨parts, hparts, hhost⟩ := parseUrl_https_host host p hh
  rw [hostOk, Bool.and_eq_true] at hh
  obtain ⟨hne, hall⟩ := hh
  rw [normalizeDomain, hparts]
  dsimp only
  have hhostname : hostnameOf parts = ⟨host.data.map Char.toLower⟩ := by
    unfold hostnameOf
    rw [hhost]
    congr 1
    apply List.takeWhile_eq_self_iff.mpr
    intro c hc
    obtain ⟨c', hc', rfl⟩ := List.mem_map.mp hc
    have h1 := List.all_eq_true.mp hall c' hc'
    rw [Bool.and_eq_true] at h1
    have h2 := h1.2
    have h3 : (c' == ':') = false := by simpa using h2
    simpa using toLower_ne_colon c' h3
  rw [hhostname]

theorem strAppend_assoc (a b c : String) : (a ++ b) ++ c = a ++ (b ++ c) := by
  rw [String.ext_iff]
  rw [strData_append, strData_append, strData_append, strData_append]
  exact List.append_assoc _ _ _

theorem stripWwwL_www (x : List Char) :
    stripWwwL ('w' :: 'w' :: 'w' :: '.' :: x) = x := by
  have hcond : (['w', 'w', 'w', '.'].isPrefixOf ('w' :: 'w' :: 'w' :: '.' :: x)) = true :=
    List.isPrefixOf_iff_prefix.mpr ⟨x, rfl⟩
  unfold stripWwwL
  rw [if_pos hcond]
  rfl

/-- Counterexample to C5 as stated: `normalizeDomain` is not idempotent —
its output on a parseable URL is a bare hostname, which `new URL` cannot
parse, so a second application yields the empty string instead. -/
theorem normalizeDomain_not_idempotent :
    normalizeDomain "https://WWW.Example.com/a" = "example.com" ∧
    normalizeDomain (normalizeDomain "https://WWW.Example.com/a") = "" ∧
    normalizeDomain (normalizeDomain "https://WWW.Example.com/a")
      ≠ normalizeDomain "https://WWW.Example.com/a" := by
  decide

/-- C5 (amended): `normalizeDomain` collapses to the empty string on
second application (the bare-hostname output does not re-parse); on its
intended inputs it is case-insensitive in the hostname, insensitive to
the URL path, and insensitive to one leading `www.`; and the two
concrete URLs of the claim both normalize to `example.com`. -/
theorem normalizeDomain_canonicalization :
    (∀ u : String, normalizeDomain (normalizeDomain u) = "") ∧
    normalizeDomain "https://WWW.Example.com/a" = "example.com" ∧
    normalizeDomain "https://example.com/b" = "example.com" ∧
    (∀ host p1 p2 : String, hostOk host = true →
      normalizeDomain ("https://" ++ host ++ "/" ++ p1)
        = normalizeDomain ("https://" ++ host ++ "/" ++ p2)) ∧
    (∀ h1 h2 p1 p2 : String, hostOk h1 = true → hostOk h2 = true →
      toLowerStr h1 = toLowerStr h2 →
      normalizeDomain ("https://" ++ h1 ++ "/" ++ p1)
        = normalizeDomain ("https://" ++ h2 ++ "/" ++ p2)) ∧
    (∀ host p1 p2 : String, hostOk host = true →
      stripWwwL (toLowerStr host).data = (toLowerStr host).data →
      normalizeDomain ("https://www." ++ host ++ "/" ++ p1)
        = normalizeDomain ("https://" ++ host ++ "/" ++ p2)) := by
  refine ⟨normalizeDomain_twice, by decide, by decide, ?_, ?_, ?_⟩
  · intro host p1 p2 hh
    rw [normalizeDomain_https _ _ hh, normalizeDomain_https _ _ hh]
  · intro h1 h2 p1 p2 hh1 hh2 hlow
    rw [normalizeDomain_https _ _ hh1, normalizeDomain_https _ _ hh2]
    have : h1.data.map Char.toLower = h2.data.map Char.toLower :=
      congrArg String.data hlow
    rw [this]
  · intro host p1 p2 hh hw
    have hok : hostOk ("www." ++ host) = true := by
      rw [hostOk, Bool.and_eq_true]
      have hh' := hh
      rw [hostOk, Bool.and_eq_true] at hh'
      constructor
      · rfl
      · apply List.all_eq_true.mpr
        intro c hc
        rw [show ("www." ++ host).data = 'w' :: 'w' :: 'w' :: '.' :: host.data
          from rfl] at hc
        simp only [List.mem_cons] at hc
        rcases hc with hc | hc | hc | hc | hc
        · subst hc; decide
        · subst hc; decide
        · subst hc; decide
        · subst hc; decide
        · exact List.all_eq_true.mp hh'.2 c hc
    have e1 : ("https://www." ++ host ++ "/" ++ p1)
        = ("https://" ++ ("www." ++ host) ++ "/" ++ p1) := by
      rw [show ("https://www." : String) = "https://" ++ "www." from rfl,
        strAppend_assoc "https://" "www." host]
    rw [e1, normalizeDomain_https _ _ hok, normalizeDomain_https _ _ hh]
    rw [show ("www." ++ host).data.map Char.toLower
      = 'w' :: 'w' :: 'w' :: '.' :: host.data.map Char.toLower from rfl]
    rw [stripWwwL_www]
    have hw' : stripWwwL (host.data.map Char.toLower) = host.data.map Char.toLower := hw
    rw [hw']

/-- Witness for the amended C5: path-insensitivity applied at the
concrete host `Example.com`. -/
theorem normalizeDomain_canonicalization_witness :
    normalizeDomain ("https://" ++ "Example.com" ++ "/" ++ "a")
      = normalizeDomain ("https://" ++ "Example.com" ++ "/" ++ "b") :=
  normalizeDomain_canonicalization.2.2.2.1 "Example.com" "a" "b" (by decide)

end MetroDiscovery
